import Mathlib

/-!
Shallow embedding of the curve-editing tool in `src/main.rs` (bevy app).

Positions are idealised over `ℚ` (the Rust code uses `f32`; all claims
settled here are structural/control-flow claims, not rounding claims).
The bevy collaborators that the code calls through narrow interfaces
(`camera.viewport_to_world_2d`, the cubic-spline generators of
`bevy::math::cubic_splines`) are embedded from the behaviour those calls
have, as the spec describes it; failures of `camera.get_single()` and of
`viewport_to_world_2d` are merged into one `Vec2 → Option Vec2` projection
parameter, since both early-return identically.
-/

/-- Planar vector / point, idealised over `ℚ` (Rust `Vec2` holds `f32`). -/
structure Vec2 where
  x : ℚ
  y : ℚ
deriving DecidableEq, Repr

def Vec2.add (v w : Vec2) : Vec2 := ⟨v.x + w.x, v.y + w.y⟩

def Vec2.sub (v w : Vec2) : Vec2 := ⟨v.x - w.x, v.y - w.y⟩

def Vec2.smul (c : ℚ) (v : Vec2) : Vec2 := ⟨c * v.x, c * v.y⟩

def vZero : Vec2 := ⟨0, 0⟩

/-- Squared Euclidean distance.  The Rust `Vec2::distance` is
`sqrt((a.x-b.x)^2 + (a.y-b.y)^2)`; we keep the square to stay in `ℚ`. -/
def Vec2.distSq (v w : Vec2) : ℚ :=
  (v.x - w.x) * (v.x - w.x) + (v.y - w.y) * (v.y - w.y)

/-- The `Srgba` palette constants used by the code (display-only data). -/
inductive Color where
  | green
  | red
  | white
  | pink
  | yellow
deriving DecidableEq, Repr

/-- Model of `struct MovablePoint` from `src/main.rs`. -/
structure MovablePoint where
  position : Vec2
  show_size : ℚ
  selected_size : ℚ
  default_color : Color
  selected_color : Color
  is_selected : Bool
deriving DecidableEq, Repr

/-- Model of `impl Default for MovablePoint`. -/
def MovablePoint.default : MovablePoint :=
  { position := ⟨0, 0⟩
    show_size := 5
    selected_size := 10
    default_color := Color.green
    selected_color := Color.red
    is_selected := false }

/-- Model of the `ControlPoints` resource: its `points` field is a
`Vec<MovablePoint>`; we use a `List`. -/
abbrev ControlPoints := List MovablePoint

/-- The `clear_selected` closure in `move_point_with_mouse`: sets
`is_selected = false` on every point. -/
def clearSelected (pts : ControlPoints) : ControlPoints :=
  pts.map (fun p => { p with is_selected := false })

/-- Test `control_points.points.iter().any(|p| p.is_selected)` — whether the first
loop of `move_point_with_mouse` would hit its early `return`. -/
def anySelected (pts : ControlPoints) : Bool :=
  pts.any (fun p => p.is_selected)

/-- First loop of `move_point_with_mouse`: walk the points in order; the
first point with `is_selected` gets its `position` overwritten with the
mouse point and iteration stops (the Rust loop does `return`). -/
def moveFirstSelected : ControlPoints → Vec2 → ControlPoints
  | [], _ => []
  | p :: rest, m =>
    if p.is_selected then { p with position := m } :: rest
    else p :: moveFirstSelected rest m

/-- The hit test `point.position.distance(mouse_point) < point.selected_size`
of `move_point_with_mouse`, square-root free: for a Euclidean distance `d`,
`sqrt d < r ↔ (0 < r ∧ d < r * r)`. -/
def withinRadius (p : MovablePoint) (m : Vec2) : Bool :=
  decide (0 < p.selected_size ∧ Vec2.distSq p.position m < p.selected_size * p.selected_size)

/-- Second loop of `move_point_with_mouse`: walk the points in order; the
first point strictly within its own `selected_size` of the mouse point gets
`is_selected = true` and iteration stops (the Rust loop does `break`). -/
def selectFirstWithin : ControlPoints → Vec2 → ControlPoints
  | [], _ => []
  | p :: rest, m =>
    if withinRadius p m then { p with is_selected := true } :: rest
    else p :: selectFirstWithin rest m

/-- Embedding of `fn move_point_with_mouse` from `src/main.rs`.

`mouse_position` is the `MousePosition` resource (`Option<Vec2>`);
`left_pressed` is `input.pressed(MouseButton::Left)`;
`viewport_to_world` merges `camera.get_single()` and
`camera.viewport_to_world_2d` (each `Err` early-returns with no mutation). -/
def move_point_with_mouse (control_points : ControlPoints)
    (mouse_position : Option Vec2) (left_pressed : Bool)
    (viewport_to_world : Vec2 → Option Vec2) : ControlPoints :=
  match mouse_position with
  | none => clearSelected control_points
  | some mp =>
    if !left_pressed then clearSelected control_points
    else
      match viewport_to_world mp with
      | none => control_points
      | some mouse_point =>
        if anySelected control_points then
          moveFirstSelected control_points mouse_point
        else
          selectFirstWithin control_points mouse_point

/-- Embedding of `fn add_point_with_right_mouse` from `src/main.rs`.
`right_just_pressed` is `input.just_pressed(MouseButton::Right)`. -/
def add_point_with_right_mouse (control_points : ControlPoints)
    (right_just_pressed : Bool) (mouse_position : Option Vec2)
    (viewport_to_world : Vec2 → Option Vec2) : ControlPoints :=
  if right_just_pressed then
    match mouse_position with
    | none => control_points
    | some mp =>
      match viewport_to_world mp with
      | none => control_points
      | some world_position =>
        control_points ++ [{ MovablePoint.default with position := world_position }]
  else control_points

/-- Embedding of `fn handle_keypress` from `src/main.rs`: on the `C` key edge,
`control_points.points.pop()` (no-op on an empty store). -/
def handle_keypress (control_points : ControlPoints) (c_just_pressed : Bool) :
    ControlPoints :=
  if c_just_pressed then control_points.dropLast else control_points

/-!
The cubic-spline collaborator

`plot_line` calls `bevy::math::cubic_splines` (`CubicBSpline`,
`CubicCardinalSpline::new_catmull_rom`, `CubicBezier`, `CubicCurve`).  That
crate is outside this repository; the definitions below embed the behaviour
the code relies on — characteristic-matrix segment coefficients, one segment
per window of four control points, `Err` on too few points, and the
sampling rule stated by the spec (a `to_curve` `Result` becomes an `Option`): "the number of
returned points is `resolution + 1` per segment evaluated" with
`resolution = 100 *` segment count.
-/

/-- One cubic segment, as coefficients of `a + b·t + c·t² + d·t³`
(bevy `CubicSegment`). -/
structure CubicSegment where
  a : Vec2
  b : Vec2
  c : Vec2
  d : Vec2
deriving DecidableEq, Repr

def CubicSegment.zero : CubicSegment := ⟨vZero, vZero, vZero, vZero⟩

/-- Evaluate a segment at parameter `t` (Horner form `a + (b + (c + d·t)·t)·t`,
as in bevy `CubicSegment::position`). -/
def CubicSegment.positionAt (s : CubicSegment) (t : ℚ) : Vec2 :=
  Vec2.add s.a (Vec2.smul t (Vec2.add s.b (Vec2.smul t (Vec2.add s.c (Vec2.smul t s.d)))))

/-- One row of the characteristic-matrix product
`p0·c0 + p1·c1 + p2·c2 + p3·c3` (bevy `CubicSegment::coefficients`). -/
def rowCombo (c0 c1 c2 c3 : ℚ) (p0 p1 p2 p3 : Vec2) : Vec2 :=
  Vec2.add (Vec2.smul c0 p0)
    (Vec2.add (Vec2.smul c1 p1) (Vec2.add (Vec2.smul c2 p2) (Vec2.smul c3 p3)))

/-- Bezier characteristic matrix applied to four control points. -/
def bezierSegment (p0 p1 p2 p3 : Vec2) : CubicSegment :=
  { a := rowCombo 1 0 0 0 p0 p1 p2 p3
    b := rowCombo (-3) 3 0 0 p0 p1 p2 p3
    c := rowCombo 3 (-6) 3 0 p0 p1 p2 p3
    d := rowCombo (-1) 3 (-3) 1 p0 p1 p2 p3 }

/-- Uniform cubic B-spline characteristic matrix (entries divided by 6)
applied to four consecutive control points. -/
def bsplineSegment (p0 p1 p2 p3 : Vec2) : CubicSegment :=
  { a := rowCombo (1 / 6) (4 / 6) (1 / 6) 0 p0 p1 p2 p3
    b := rowCombo (-3 / 6) 0 (3 / 6) 0 p0 p1 p2 p3
    c := rowCombo (3 / 6) (-6 / 6) (3 / 6) 0 p0 p1 p2 p3
    d := rowCombo (-1 / 6) (3 / 6) (-3 / 6) (1 / 6) p0 p1 p2 p3 }

/-- Cardinal-spline characteristic matrix with tension `s` applied to four
consecutive control points (`new_catmull_rom` fixes `s = 1/2`). -/
def cardinalSegment (s : ℚ) (p0 p1 p2 p3 : Vec2) : CubicSegment :=
  { a := rowCombo 0 1 0 0 p0 p1 p2 p3
    b := rowCombo (-s) 0 s 0 p0 p1 p2 p3
    c := rowCombo (2 * s) (s - 3) (3 - 2 * s) (-s) p0 p1 p2 p3
    d := rowCombo (-s) (2 - s) (s - 2) s p0 p1 p2 p3 }

/-- Sliding `windows(4)` over a point list, mapping each window through a
segment builder. -/
def windows4 (f : Vec2 → Vec2 → Vec2 → Vec2 → CubicSegment) :
    List Vec2 → List CubicSegment
  | [] => []
  | p0 :: rest =>
    match rest with
    | p1 :: p2 :: p3 :: _ => f p0 p1 p2 p3 :: windows4 f rest
    | _ => []

/-- Embedding of `CubicBezier::new(arrays).to_curve()`: one segment per `[P; 4]` control
array; `Err` when there are no arrays. -/
def bezier_to_curve (arrays : List (Vec2 × Vec2 × Vec2 × Vec2)) :
    Option (List CubicSegment) :=
  let segments := arrays.map (fun q => bezierSegment q.1 q.2.1 q.2.2.1 q.2.2.2)
  if segments.isEmpty then none else some segments

/-- Embedding of `CubicBSpline::new(points).to_curve()`: one segment per window of four
consecutive control points; `Err` when fewer than 4 points. -/
def bspline_to_curve (points : List Vec2) : Option (List CubicSegment) :=
  let segments := windows4 bsplineSegment points
  if segments.isEmpty then none else some segments

/-- Embedding of `CubicCardinalSpline { tension, points }.to_curve()`: `Err` when fewer
than 2 points; otherwise mirror one extra control point onto each end
(`2·P₀ − P₁` and `2·Pₙ₋₁ − Pₙ₋₂`) and take one segment per window of four. -/
def cardinal_to_curve (tension : ℚ) (points : List Vec2) :
    Option (List CubicSegment) :=
  if points.length < 2 then none
  else
    let mirrored_first :=
      Vec2.sub (Vec2.smul 2 (points.getD 0 vZero)) (points.getD 1 vZero)
    let mirrored_last :=
      Vec2.sub (Vec2.smul 2 (points.getD (points.length - 1) vZero))
        (points.getD (points.length - 2) vZero)
    some (windows4 (cardinalSegment tension) (mirrored_first :: points ++ [mirrored_last]))

/-- Embedding of `CubicCurve::position(t)`: with one segment, evaluate it at `t`;
otherwise pick segment `i = clamp(⌊t⌋ as usize, 0, len − 1)` and evaluate it
at `t − i` (the `as usize` cast saturates negative values at 0). -/
def curvePosition (segments : List CubicSegment) (t : ℚ) : Vec2 :=
  if segments.length = 1 then
    (segments.getD 0 CubicSegment.zero).positionAt t
  else
    let i := min (Rat.floor t).toNat (segments.length - 1)
    (segments.getD i CubicSegment.zero).positionAt (t - (i : ℚ))

/-- Embedding of `CubicCurve::iter_positions(subdivisions)`: evaluate the curve at
`t = i · (segment count / subdivisions)` for `i = 0, …, subdivisions`,
yielding `subdivisions + 1` samples. -/
def iter_positions (segments : List CubicSegment) (subdivisions : ℕ) :
    List Vec2 :=
  let step : ℚ := (segments.length : ℚ) / (subdivisions : ℚ)
  (List.range (subdivisions + 1)).map
    (fun i : ℕ => curvePosition segments ((i : ℚ) * step))

/-- Embedding of `fn render_curve` from `src/main.rs`: on `Ok(curve)`, sample it with
`resolution = 100 * curve.segments().len()`; on `Err`, draw nothing. -/
def render_curve (curve : Option (List CubicSegment)) : Option (List Vec2) :=
  curve.map (fun segments => iter_positions segments (100 * segments.length))

/-- The four polylines `fn plot_line` hands to the renderer in one frame
(`none` = that line strip was not emitted). -/
structure PlotOutput where
  linestrip : Option (List Vec2)
  bspline : Option (List Vec2)
  cardinal : Option (List Vec2)
  bezier : Option (List Vec2)
deriving DecidableEq, Repr

/-- Embedding of `fn plot_line` from `src/main.rs`: early-return (nothing at all) when
fewer than 2 points; otherwise emit the raw linestrip, the B-spline and
Catmull-Rom curves through all the points, and — only when
`points.len() >= 4` — the single cubic Bezier built from
`[points[0], points[1], points[2], points[3]]`. -/
def plot_line (control_points : ControlPoints) : PlotOutput :=
  if control_points.length < 2 then
    { linestrip := none, bspline := none, cardinal := none, bezier := none }
  else
    let points : List Vec2 := control_points.map MovablePoint.position
    { linestrip := some points
      bspline := render_curve (bspline_to_curve points)
      cardinal := render_curve (cardinal_to_curve (1 / 2) points)
      bezier :=
        if 4 ≤ points.length then
          render_curve (bezier_to_curve
            [(points.getD 0 vZero, points.getD 1 vZero,
              points.getD 2 vZero, points.getD 3 vZero)])
        else none }

/-!
Frame-level mutation operations and the selection invariant
-/

/-- One frame-level store mutation, as scheduled by the `Update` chain in `main`:
a `move_point_with_mouse` run (which also performs the per-frame selection
clearing and the selection search), an `add_point_with_right_mouse` run, or
a `handle_keypress` run. -/
inductive FrameOp where
  | moveOp (mouse_position : Option Vec2) (left_pressed : Bool)
      (viewport_to_world : Vec2 → Option Vec2)
  | addOp (right_just_pressed : Bool) (mouse_position : Option Vec2)
      (viewport_to_world : Vec2 → Option Vec2)
  | keyOp (c_just_pressed : Bool)

/-- Apply one frame-level mutation to the store. -/
def applyOp (pts : ControlPoints) : FrameOp → ControlPoints
  | FrameOp.moveOp mp lp vw => move_point_with_mouse pts mp lp vw
  | FrameOp.addOp rp mp vw => add_point_with_right_mouse pts rp mp vw
  | FrameOp.keyOp jp => handle_keypress pts jp

/-- Number of points whose `is_selected` flag is set. -/
def countSelected (pts : ControlPoints) : ℕ :=
  pts.countP (fun p => p.is_selected)

/-- The store invariant: at most one point is selected. -/
def atMostOneSelected (pts : ControlPoints) : Prop :=
  countSelected pts ≤ 1

/-!
Concrete fixtures (the scenario stores of the spec)
-/

/-- A default-attribute point at `(x, y)` (as `add_point_with_right_mouse`
creates them). -/
def mkPt (x y : ℚ) : MovablePoint :=
  { MovablePoint.default with position := ⟨x, y⟩ }

/-- A selected default-attribute point at `(x, y)`. -/
def mkSel (x y : ℚ) : MovablePoint :=
  { MovablePoint.default with position := ⟨x, y⟩, is_selected := true }

/-- Scenario B store: the four corners of a square. -/
def fourSquare : ControlPoints :=
  [mkPt 0 0, mkPt 10 0, mkPt 10 10, mkPt 0 10]

/-- A five-point store: the square plus its centre. -/
def fiveSquare : ControlPoints :=
  fourSquare ++ [mkPt 5 5]

/-!
Helper lemmas: selection counting
-/

theorem countSelected_nil : countSelected [] = 0 := rfl

theorem countSelected_clearSelected (pts : ControlPoints) :
    countSelected (clearSelected pts) = 0 := by
  simp [clearSelected, countSelected]

theorem countSelected_moveFirstSelected (pts : ControlPoints) (m : Vec2) :
    countSelected (moveFirstSelected pts m) = countSelected pts := by
  induction pts with
  | nil => rfl
  | cons p rest ih =>
    by_cases hp : p.is_selected
    · simp [moveFirstSelected, hp, countSelected, List.countP_cons]
    · simp [moveFirstSelected, hp, countSelected, List.countP_cons] at ih ⊢
      exact ih

theorem countSelected_eq_zero_of_not_any (pts : ControlPoints)
    (h : anySelected pts = false) : countSelected pts = 0 := by
  induction pts with
  | nil => rfl
  | cons p rest ih =>
    simp [anySelected] at h
    simp [countSelected, List.countP_cons, h.1] at ih ⊢
    exact ih (by simpa [anySelected] using h.2)

theorem countSelected_selectFirstWithin (pts : ControlPoints) (m : Vec2) :
    countSelected (selectFirstWithin pts m) ≤ countSelected pts + 1 := by
  induction pts with
  | nil => simp [selectFirstWithin]
  | cons p rest ih =>
    by_cases hw : withinRadius p m
    · simp [selectFirstWithin, hw, countSelected, List.countP_cons]
    · simp only [selectFirstWithin, hw, Bool.false_eq_true, if_false]
      simp only [countSelected, List.countP_cons] at ih ⊢
      omega

theorem countSelected_append (pts pts2 : ControlPoints) :
    countSelected (pts ++ pts2) = countSelected pts + countSelected pts2 :=
  List.countP_append _ pts pts2

theorem countSelected_dropLast_le (pts : ControlPoints) :
    countSelected pts.dropLast ≤ countSelected pts :=
  List.Sublist.countP_le _ (List.dropLast_sublist pts)

/-- Each frame-level mutation preserves the at-most-one-selected bound. -/
theorem countSelected_applyOp (pts : ControlPoints) (op : FrameOp)
    (h : countSelected pts ≤ 1) : countSelected (applyOp pts op) ≤ 1 := by
  cases op with
  | moveOp mp lp vw =>
    cases mp with
    | none => simp [applyOp, move_point_with_mouse, countSelected_clearSelected]
    | some m =>
      cases lp with
      | false => simp [applyOp, move_point_with_mouse, countSelected_clearSelected]
      | true =>
        simp only [applyOp, move_point_with_mouse, Bool.not_true, Bool.false_eq_true,
          if_false]
        cases hvw : vw m with
        | none => exact h
        | some w =>
          by_cases hs : anySelected pts
          · simp [hs, countSelected_moveFirstSelected, h]
          · have h0 := countSelected_eq_zero_of_not_any pts (by simpa using hs)
            have := countSelected_selectFirstWithin pts w
            simp [hs]
            omega
  | addOp rp mp vw =>
    cases rp with
    | false => simpa [applyOp, add_point_with_right_mouse] using h
    | true =>
      cases mp with
      | none => simpa [applyOp, add_point_with_right_mouse] using h
      | some m =>
        cases hvw : vw m with
        | none => simpa [applyOp, add_point_with_right_mouse, hvw] using h
        | some w =>
          have : countSelected [{ MovablePoint.default with position := w }] = 0 := by
            simp [countSelected, List.countP_cons, MovablePoint.default]
          simp [applyOp, add_point_with_right_mouse, hvw, countSelected_append, this, h]
  | keyOp jp =>
    cases jp with
    | false => simpa [applyOp, handle_keypress] using h
    | true =>
      have := countSelected_dropLast_le pts
      simp only [applyOp, handle_keypress, if_true]
      omega

theorem countSelected_foldl (ops : List FrameOp) (pts : ControlPoints)
    (h : countSelected pts ≤ 1) :
    countSelected (List.foldl applyOp pts ops) ≤ 1 := by
  induction ops generalizing pts with
  | nil => simpa using h
  | cons op rest ih => exact ih _ (countSelected_applyOp pts op h)

/-- C2: starting from the empty store, after any sequence of the frame-level
mutation operations (append via right click, remove-last via the `C` key,
per-frame selection clearing, selection, and drag-move), at most one control
point has `is_selected = true`. -/
theorem store_at_most_one_selected (ops : List FrameOp) :
    atMostOneSelected (List.foldl applyOp [] ops) :=
  countSelected_foldl ops [] (by simp [countSelected_nil])

/-!
Helper lemmas: the two loops of `move_point_with_mouse`
-/

theorem anySelected_of_mem {pts : ControlPoints} {x : MovablePoint}
    (hmem : x ∈ pts) (hx : x.is_selected = true) : anySelected pts = true :=
  List.any_eq_true.mpr ⟨x, hmem, hx⟩

theorem moveFirstSelected_append (pre post : List MovablePoint)
    (x : MovablePoint) (m : Vec2) (hpre : ∀ q ∈ pre, q.is_selected = false)
    (hx : x.is_selected = true) :
    moveFirstSelected (pre ++ x :: post) m
      = pre ++ { x with position := m } :: post := by
  induction pre with
  | nil => simp [moveFirstSelected, hx]
  | cons p rest ih =>
    have hp : p.is_selected = false := hpre p (by simp)
    simp [moveFirstSelected, hp, ih (fun q hq => hpre q (by simp [hq]))]

theorem selectFirstWithin_append (pre post : List MovablePoint)
    (x : MovablePoint) (m : Vec2) (hpre : ∀ q ∈ pre, withinRadius q m = false)
    (hx : withinRadius x m = true) :
    selectFirstWithin (pre ++ x :: post) m
      = pre ++ { x with is_selected := true } :: post := by
  induction pre with
  | nil => simp [selectFirstWithin, hx]
  | cons p rest ih =>
    have hp : withinRadius p m = false := hpre p (by simp)
    simp [selectFirstWithin, hp, ih (fun q hq => hpre q (by simp [hq]))]

theorem selectFirstWithin_of_none (pts : ControlPoints) (m : Vec2)
    (h : ∀ q ∈ pts, withinRadius q m = false) :
    selectFirstWithin pts m = pts := by
  induction pts with
  | nil => rfl
  | cons p rest ih =>
    have hp : withinRadius p m = false := h p (by simp)
    simp [selectFirstWithin, hp, ih (fun q hq => h q (by simp [hq]))]

/-- C3: in a frame where the left button is held, the pointer is known, the
projection succeeds and some point is already selected, that selected
position of that selected point is overwritten with the projected pointer position; its
selection flag and every other point are untouched, and no new selection
search runs in that frame. -/
theorem drag_overrides_selection_search (pre post : List MovablePoint)
    (x : MovablePoint) (mp w : Vec2) (vw : Vec2 → Option Vec2)
    (hvw : vw mp = some w) (hpre : ∀ q ∈ pre, q.is_selected = false)
    (hx : x.is_selected = true) :
    move_point_with_mouse (pre ++ x :: post) (some mp) true vw
      = pre ++ { x with position := w } :: post := by
  have hany : anySelected (pre ++ x :: post) = true :=
    anySelected_of_mem (by simp) hx
  simp [move_point_with_mouse, hvw, hany,
    moveFirstSelected_append pre post x w hpre hx]

/-- Witness for C3 (spec Scenario D): the selected point `(10,0)`
moves to the projected pointer `(20,20)`; no other point changes. -/
theorem drag_overrides_selection_search_witness :
    move_point_with_mouse [mkPt 0 0, mkSel 10 0, mkPt 10 10, mkPt 0 10]
        (some ⟨20, 20⟩) true some
      = [mkPt 0 0, mkSel 20 20, mkPt 10 10, mkPt 0 10] :=
  drag_overrides_selection_search [mkPt 0 0] [mkPt 10 10, mkPt 0 10]
    (mkSel 10 0) ⟨20, 20⟩ ⟨20, 20⟩ some rfl (by decide) rfl

/-- C4: in a frame where the left button is held, the pointer is known, the
projection succeeds and no point is selected, the first point in store
order strictly within its own selected radius of the projected pointer
becomes selected (earliest-appended wins, not nearest-match); if no point
qualifies, the store is left unchanged. -/
theorem selection_first_within_radius :
    (∀ (pre post : List MovablePoint) (x : MovablePoint) (mp w : Vec2)
        (vw : Vec2 → Option Vec2), vw mp = some w →
        anySelected (pre ++ x :: post) = false →
        (∀ q ∈ pre, withinRadius q w = false) →
        withinRadius x w = true →
        move_point_with_mouse (pre ++ x :: post) (some mp) true vw
          = pre ++ { x with is_selected := true } :: post)
  ∧ (∀ (pts : ControlPoints) (mp w : Vec2) (vw : Vec2 → Option Vec2),
        vw mp = some w → anySelected pts = false →
        (∀ q ∈ pts, withinRadius q w = false) →
        move_point_with_mouse pts (some mp) true vw = pts) := by
  constructor
  · intro pre post x mp w vw hvw hany hpre hx
    simp [move_point_with_mouse, hvw, hany,
      selectFirstWithin_append pre post x w hpre hx]
  · intro pts mp w vw hvw hany hnone
    simp [move_point_with_mouse, hvw, hany,
      selectFirstWithin_of_none pts w hnone]

/-- Witness for C4 (spec Scenario C): pointer projects to
`(10, 1/2)`; the point at `(10,0)` — not the farther corners — becomes the
unique selected point. -/
theorem selection_first_within_radius_witness :
    move_point_with_mouse fourSquare (some ⟨10, 1 / 2⟩) true some
      = [mkPt 0 0, mkSel 10 0, mkPt 10 10, mkPt 0 10] :=
  selection_first_within_radius.1 [mkPt 0 0] [mkPt 10 10, mkPt 0 10]
    (mkPt 10 0) ⟨10, 1 / 2⟩ ⟨10, 1 / 2⟩ some rfl rfl
    (by
      intro q hq
      rw [List.mem_singleton] at hq
      subst hq
      norm_num [withinRadius, mkPt, MovablePoint.default, Vec2.distSq])
    (by norm_num [withinRadius, mkPt, MovablePoint.default, Vec2.distSq])

/-- C5: in a frame where the pointer position is unknown or the left button
is not held, the interaction step exactly clears `is_selected` on every
point and performs no other mutation. -/
theorem pointer_absent_or_released_clears_selection :
    (∀ (pts : ControlPoints) (lp : Bool) (vw : Vec2 → Option Vec2),
        move_point_with_mouse pts none lp vw
          = pts.map (fun p => { p with is_selected := false }))
  ∧ (∀ (pts : ControlPoints) (mp : Vec2) (vw : Vec2 → Option Vec2),
        move_point_with_mouse pts (some mp) false vw
          = pts.map (fun p => { p with is_selected := false })) :=
  ⟨fun _ _ _ => rfl, fun _ _ _ => rfl⟩

/-!
Helper lemmas: `plot_line` and the tessellations
-/

theorem length_iter_positions (segments : List CubicSegment) (n : ℕ) :
    (iter_positions segments n).length = n + 1 := by
  unfold iter_positions
  rw [List.length_map, List.length_range]

theorem plot_line_bezier_of_le (pts : ControlPoints) (h : 4 ≤ pts.length) :
    (plot_line pts).bezier
      = some (iter_positions
          [bezierSegment ((pts.map MovablePoint.position).getD 0 vZero)
            ((pts.map MovablePoint.position).getD 1 vZero)
            ((pts.map MovablePoint.position).getD 2 vZero)
            ((pts.map MovablePoint.position).getD 3 vZero)] 100) := by
  have h2 : ¬ pts.length < 2 := by omega
  simp [plot_line, h2, h, bezier_to_curve, render_curve]

theorem plot_line_bezier_of_lt (pts : ControlPoints) (h : pts.length < 4) :
    (plot_line pts).bezier = none := by
  by_cases h2 : pts.length < 2
  · simp [plot_line, h2]
  · have h4 : ¬ 4 ≤ pts.length := by omega
    simp [plot_line, h2, h4]

theorem plot_line_bezier_congr (pts pts2 : ControlPoints)
    (h : 4 ≤ pts.length) (h2 : 4 ≤ pts2.length)
    (hj : ∀ j, j < 4 →
      (pts.map MovablePoint.position).getD j vZero
        = (pts2.map MovablePoint.position).getD j vZero) :
    (plot_line pts).bezier = (plot_line pts2).bezier := by
  rw [plot_line_bezier_of_le pts h, plot_line_bezier_of_le pts2 h2,
    hj 0 (by omega), hj 1 (by omega), hj 2 (by omega), hj 3 (by omega)]

/-- C6: with fewer than two control points, `plot_line` returns before the
B-spline and Catmull-Rom tessellations: both produce nothing, and no error
is surfaced. -/
theorem fewer_than_two_points_no_splines (pts : ControlPoints)
    (h : pts.length < 2) :
    (plot_line pts).bspline = none ∧ (plot_line pts).cardinal = none := by
  simp [plot_line, h]

/-- Witness for C6 at a one-point store. -/
theorem fewer_than_two_points_no_splines_witness :
    (plot_line [MovablePoint.default]).bspline = none
      ∧ (plot_line [MovablePoint.default]).cardinal = none :=
  fewer_than_two_points_no_splines [MovablePoint.default] (by decide)

/-- C7: every successfully tessellated curve is sampled with
`resolution = 100` per segment and yields `resolution + 1` polyline points,
so a `k`-segment curve yields `100·k + 1` samples; in particular a 4-point
Bezier yields 101 samples. -/
theorem tessellation_sample_count :
    (∀ segments : List CubicSegment,
        (render_curve (some segments)).map List.length
          = some (100 * segments.length + 1))
  ∧ (∀ pts : ControlPoints, pts.length = 4 →
        ((plot_line pts).bezier).map List.length = some 101) := by
  constructor
  · intro segments
    simp [render_curve, length_iter_positions]
  · intro pts h
    rw [plot_line_bezier_of_le pts (by omega)]
    simp [length_iter_positions]

/-- Witness for C7: the Scenario-B square yields a 101-point Bezier. -/
theorem tessellation_sample_count_witness :
    ((plot_line fourSquare).bezier).map List.length = some 101 :=
  tessellation_sample_count.2 fourSquare (by decide)

/-- C1 counterexample: `fiveSquare` has five control points — a count
different from 4 — yet the Bezier evaluation still emits a polyline. -/
theorem bezier_emitted_for_five_points :
    fiveSquare.length = 5 ∧ (plot_line fiveSquare).bezier.isSome = true :=
  ⟨rfl, rfl⟩

/-- C1 amended: the Bezier polyline is produced exactly when the point
count is at least 4 (`points.len() >= 4` in `plot_line`), not only at
exactly 4; it is the tessellation of the single cubic segment built from
the first four points in store order. -/
theorem bezier_iff_at_least_four :
    (∀ pts : ControlPoints,
        (plot_line pts).bezier.isSome = true ↔ 4 ≤ pts.length)
  ∧ (∀ pts pts2 : ControlPoints, 4 ≤ pts.length → 4 ≤ pts2.length →
        (pts.map MovablePoint.position).take 4
          = (pts2.map MovablePoint.position).take 4 →
        (plot_line pts).bezier = (plot_line pts2).bezier) := by
  constructor
  · intro pts
    constructor
    · intro hsome
      by_contra hlt
      rw [plot_line_bezier_of_lt pts (by omega)] at hsome
      simp at hsome
    · intro h4
      rw [plot_line_bezier_of_le pts h4]
      rfl
  · intro pts pts2 h4 h4b htake
    refine plot_line_bezier_congr pts pts2 h4 h4b ?_
    intro j hj
    have hx := congrArg (fun l => l.getD j vZero) htake
    simpa [List.getD_eq_getElem?_getD, List.getElem?_take, hj] using hx

/-- Witness for the amended C1: the square and the square-plus-centre
stores share their first four points, hence their Bezier polylines agree
(and both exist). -/
theorem bezier_iff_at_least_four_witness :
    (plot_line fourSquare).bezier = (plot_line fiveSquare).bezier :=
  bezier_iff_at_least_four.2 fourSquare fiveSquare (by decide) (by decide) rfl

/-- C10: with strictly more than four points the Bezier evaluation still
runs, and replacing any point at index 4 or beyond leaves its output
unchanged. -/
theorem bezier_ignores_tail_points (pts : ControlPoints) (i : ℕ)
    (q : MovablePoint) (h5 : 4 < pts.length) (hi : 4 ≤ i) :
    (plot_line pts).bezier.isSome = true
      ∧ (plot_line (pts.set i q)).bezier = (plot_line pts).bezier := by
  have h4 : 4 ≤ pts.length := by omega
  constructor
  · rw [plot_line_bezier_of_le pts h4]
    rfl
  · refine plot_line_bezier_congr (pts.set i q) pts
      (by simpa [List.length_set] using h4) h4 ?_
    intro j hj
    have hne : i ≠ j := by omega
    simp [List.getD_eq_getElem?_getD, List.map_set, List.getElem?_set_ne hne]

/-- Witness for C10: replacing the fifth point of `fiveSquare` leaves the
Bezier polyline unchanged. -/
theorem bezier_ignores_tail_points_witness :
    (plot_line fiveSquare).bezier.isSome = true
      ∧ (plot_line (fiveSquare.set 4 (mkPt 7 7))).bezier
          = (plot_line fiveSquare).bezier :=
  bezier_ignores_tail_points fiveSquare 4 (mkPt 7 7) (by decide) (by decide)

/-- C9 amended: the raw control-polygon linestrip is emitted exactly when
the store has at least two points, and then it is exactly the input points
in store order; for zero or one points `plot_line` returns early and no
linestrip is emitted at all. -/
theorem linestrip_is_input_points (pts : ControlPoints) :
    (plot_line pts).linestrip
      = if 2 ≤ pts.length then some (pts.map MovablePoint.position)
        else none := by
  by_cases h : pts.length < 2
  · rw [if_neg (by omega)]
    simp [plot_line, h]
  · rw [if_pos (by omega)]
    simp [plot_line, h]

/-- C9 counterexample: with a single point the code emits no linestrip,
rather than the one-point polyline the claim requires. -/
theorem no_linestrip_for_single_point :
    ¬ ((plot_line [MovablePoint.default]).linestrip
        = some ([MovablePoint.default].map MovablePoint.position)) := by
  simp [plot_line]

/-- C8: on a right-button edge with a known pointer and a successful
projection, exactly one new point is appended at the tail, positioned at
the projected world point, unselected, with default display attributes;
with an unknown pointer or a failed projection nothing is appended. -/
theorem right_click_appends_unselected_point :
    (∀ (pts : ControlPoints) (mp w : Vec2) (vw : Vec2 → Option Vec2),
        vw mp = some w →
        add_point_with_right_mouse pts true (some mp) vw
          = pts ++ [{ MovablePoint.default with position := w }])
  ∧ (∀ w : Vec2,
        ({ MovablePoint.default with position := w }).is_selected = false)
  ∧ (∀ (pts : ControlPoints) (vw : Vec2 → Option Vec2),
        add_point_with_right_mouse pts true none vw = pts)
  ∧ (∀ (pts : ControlPoints) (mp : Vec2) (vw : Vec2 → Option Vec2),
        vw mp = none →
        add_point_with_right_mouse pts true (some mp) vw = pts) := by
  refine ⟨?_, fun w => rfl, fun pts vw => rfl, ?_⟩
  · intro pts mp w vw hvw
    simp [add_point_with_right_mouse, hvw]
  · intro pts mp vw hvw
    simp [add_point_with_right_mouse, hvw]

/-- Witness for C8 (spec Scenario E): right click projecting to
`(5,5)` appends a fifth, unselected point there. -/
theorem right_click_appends_unselected_point_witness :
    add_point_with_right_mouse fourSquare true (some ⟨5, 5⟩) some
      = fourSquare ++ [mkPt 5 5] :=
  right_click_appends_unselected_point.1 fourSquare ⟨5, 5⟩ ⟨5, 5⟩ some rfl
